import Mathlib

/-!
Verification development for the OCI ExadataCC inventory prototype
(`prototype_fetch_exadata.py`).

The script walks a tenancy: it discovers all compartments
(`list_all_compartments`), lists Exadata infrastructures per compartment
(`list_exadata_infrastructures`), fetches per-infrastructure details
(`get_exadata_infrastructure_details`), lists VM clusters per infrastructure
(`list_vm_clusters`), fetches per-cluster details (`get_vm_cluster_details`),
and assembles everything into one nested report (`fetch_all_data`).

Shallow embedding choices:
- The authenticated SDK clients (`identity_client`, `db_client`) are modelled by
  a `Provider` structure: one field per remote endpoint the script calls, each
  returning `Except ServiceError _` (a raised `oci.exceptions.ServiceError`
  becomes `.error`).
- A paginated endpoint is modelled by the finite sequence of pages the provider
  serves for the scope (`List (List _)`); the continuation cursor is the index
  of the next page, `none` when the chain ends.  The `while True` cursor loop of
  the script is `paginateFrom` (cursor-indexed, with an explicit termination
  measure) and `paginate` (the structurally recursive form used downstream);
  both are proved to return the concatenation of all pages.
- Python mutation (`total_vm_clusters += 1`, `list.append`) becomes accumulator
  recursion producing the same lists and counters in the same order.
- The two totals that `fetch_all_data` prints on its last line are exposed as
  extra outputs of `fetch_all_data_impl`; the value the Python function
  actually returns is `fetch_all_data = fetch_all_data_impl` projected to the
  report component.
-/

namespace Exadata

/-- Models `oci.exceptions.ServiceError` (the `status` field is what the
script prints before re-raising). -/
structure ServiceError where
  status : Nat
  deriving DecidableEq, Repr

/-- A compartment summary as returned by `identity_client.list_compartments`. -/
structure Compartment where
  id : String
  name : String
  lifecycle_state : String
  deriving DecidableEq, Repr

/-- The tenancy record returned by `identity_client.get_tenancy`. -/
structure Tenancy where
  id : String
  name : String
  deriving DecidableEq, Repr

/-- The dictionary appended to `all_compartments` in `list_all_compartments`
(keys `id`, `name`, `lifecycle_state`, `is_root`). -/
structure CompEntry where
  id : String
  name : String
  lifecycle_state : String
  is_root : Bool
  deriving DecidableEq, Repr

/-- An Exadata infrastructure record; only the fields the traversal logic
reads (`id`, `display_name`) are modelled, the remaining descriptive fields
are opaque payload as far as the traversal is concerned. -/
structure Infra where
  id : String
  display_name : String
  deriving DecidableEq, Repr

/-- A VM cluster record; as with `Infra`, only the fields the traversal
reads are modelled. -/
structure VmCluster where
  id : String
  display_name : String
  deriving DecidableEq, Repr

/-- Opaque payload of `get_exadata_infrastructure_ocpus`. -/
structure OcpuInfo where
  payload : String
  deriving DecidableEq, Repr

/-- Opaque payload of `get_exadata_infrastructure_un_allocated_resources`. -/
structure UnallocatedResources where
  payload : String
  deriving DecidableEq, Repr

/-- Opaque payload of `get_vm_cluster_iorm_config`. -/
structure IormConfig where
  payload : String
  deriving DecidableEq, Repr

/-- One entry of the `list_vm_cluster_patches` response. -/
structure Patch where
  id : String
  deriving DecidableEq, Repr

/-- The remote endpoints the script calls, one field per SDK method.  A
paginated endpoint is given as the finite sequence of pages served for the
scope; every endpoint may raise a `ServiceError`. -/
structure Provider where
  /-- `self.tenancy_id`, read from the profile configuration. -/
  tenancy_id : String
  /-- `identity_client.get_tenancy(tenancy_id=...)`. -/
  tenancy : Except ServiceError Tenancy
  /-- pages of `identity_client.list_compartments(compartment_id=tenancy_id,
  compartment_id_in_subtree=True, access_level="ACCESSIBLE", page=...)`. -/
  compartment_pages : Except ServiceError (List (List Compartment))
  /-- pages of `db_client.list_exadata_infrastructures(compartment_id, ...)`. -/
  infra_pages : String → Except ServiceError (List (List Infra))
  /-- `db_client.get_exadata_infrastructure(exadata_infrastructure_id)`. -/
  get_infra : String → Except ServiceError Infra
  /-- `db_client.get_exadata_infrastructure_ocpus(...)`. -/
  get_ocpus : String → Except ServiceError OcpuInfo
  /-- `db_client.get_exadata_infrastructure_un_allocated_resources(...)`. -/
  get_unallocated : String → Except ServiceError UnallocatedResources
  /-- pages of `db_client.list_vm_clusters(compartment_id,
  exadata_infrastructure_id, ...)`. -/
  cluster_pages : String → Option String → Except ServiceError (List (List VmCluster))
  /-- `db_client.get_vm_cluster(vm_cluster_id)`. -/
  get_cluster : String → Except ServiceError VmCluster
  /-- `db_client.get_vm_cluster_iorm_config(vm_cluster_id)`. -/
  get_iorm : String → Except ServiceError IormConfig
  /-- `db_client.list_vm_cluster_patches(vm_cluster_id)` (a single call in the
  script, not paginated). -/
  list_patches : String → Except ServiceError (List Patch)

/-- The `try: x = call(...).data / except: x = None` pattern used for the
optional sub-record fetches. -/
def tryOpt {α : Type} : Except ServiceError α → Option α
  | .ok a => some a
  | .error _ => none

/-- The `try: patches = call(...).data[:5] / except: patches = []` pattern of
`get_vm_cluster_details` (lines 252-258). -/
def patchesOf : Except ServiceError (List Patch) → List Patch
  | .ok l => l.take 5
  | .error _ => []

/-- One page request of the `while True` pagination loop: with cursor `page`
(`none` on the first request, which the provider serves as page 0) the
response carries the data of that page and `next_page`, the cursor of the
following page or `none` when the chain is exhausted. -/
def pageCall {α : Type} (pages : List (List α)) (page : Option Nat) :
    List α × Option Nat :=
  let i := page.getD 0
  (pages.getD i [], if i + 1 < pages.length then some (i + 1) else none)

/-- The cursor-following pagination loop, resumed at cursor `i`: request the
page, keep its data, and continue while `next_page` is present.  Termination
is by the explicit measure `pages.length - i`: every served cursor strictly
advances along the finite page chain. -/
def paginateFrom {α : Type} (pages : List (List α)) (i : Nat) : List α :=
  let resp := pageCall pages (some i)
  if _h : i + 1 < pages.length then
    resp.1 ++ paginateFrom pages (i + 1)
  else
    resp.1
termination_by pages.length - i
decreasing_by
  omega

/-- The pagination loop as used by the listing functions: structurally
recursive form, consuming the finite page chain front to back (`rest = []`
is exactly `next_page = none`). -/
def paginate {α : Type} : List (List α) → List α
  | [] => []
  | pageData :: rest => pageData ++ paginate rest

/-- `list_all_compartments` (lines 60-113): the root compartment is appended
first with a synthetic `"ACTIVE"` state and `is_root = True`, then the
paginated `list_compartments` results are appended, keeping only entries whose
`lifecycle_state` is `"ACTIVE"`, each marked `is_root = False`.  A
`ServiceError` from `get_tenancy` or any page request is printed and
re-raised. -/
def list_all_compartments (p : Provider) : Except ServiceError (List CompEntry) :=
  match p.tenancy with
  | .error e => .error e
  | .ok tenancy =>
    match p.compartment_pages with
    | .error e => .error e
    | .ok pages =>
      .ok (⟨tenancy.id, tenancy.name, "ACTIVE", true⟩ ::
        ((paginate pages).filter
            (fun c => c.lifecycle_state = "ACTIVE")).map
          (fun c => ⟨c.id, c.name, c.lifecycle_state, false⟩))

/-- `list_exadata_infrastructures` (lines 115-150): the pagination loop over
`db_client.list_exadata_infrastructures` for one compartment; errors are
printed and re-raised. -/
def list_exadata_infrastructures (p : Provider) (compartment_id : String) :
    Except ServiceError (List Infra) :=
  match p.infra_pages compartment_id with
  | .error e => .error e
  | .ok pages => .ok (paginate pages)

/-- The dictionary returned by `get_exadata_infrastructure_details` (keys
`infrastructure`, `ocpu_info`, `unallocated_resources`). -/
structure InfraDetails where
  infrastructure : Infra
  ocpu_info : Option OcpuInfo
  unallocated_resources : Option UnallocatedResources
  deriving DecidableEq, Repr

/-- `get_exadata_infrastructure_details` (lines 152-192): the mandatory base
record fetch re-raises on failure; the OCPU and unallocated-resources fetches
are each wrapped in a bare `try/except` that downgrades any failure to
`None`. -/
def get_exadata_infrastructure_details (p : Provider)
    (exadata_infrastructure_id : String) :
    Except ServiceError InfraDetails :=
  match p.get_infra exadata_infrastructure_id with
  | .error e => .error e
  | .ok infra =>
    .ok ⟨infra, tryOpt (p.get_ocpus exadata_infrastructure_id),
      tryOpt (p.get_unallocated exadata_infrastructure_id)⟩

/-- `list_vm_clusters` (lines 194-228): the pagination loop over
`db_client.list_vm_clusters` for one compartment, optionally narrowed to one
infrastructure; errors are printed and re-raised. -/
def list_vm_clusters (p : Provider) (compartment_id : String)
    (exadata_infrastructure_id : Option String) :
    Except ServiceError (List VmCluster) :=
  match p.cluster_pages compartment_id exadata_infrastructure_id with
  | .error e => .error e
  | .ok pages => .ok (paginate pages)

/-- The dictionary returned by `get_vm_cluster_details` (keys `cluster`,
`iorm_config`, `patches`). -/
structure ClusterDetails where
  cluster : VmCluster
  iorm_config : Option IormConfig
  patches : List Patch
  deriving DecidableEq, Repr

/-- `get_vm_cluster_details` (lines 230-268): mandatory base record fetch
re-raises on failure; the IORM fetch downgrades any failure to `None`; the
patch listing takes the first five entries of whatever the provider returns
and downgrades any failure to the empty list. -/
def get_vm_cluster_details (p : Provider) (vm_cluster_id : String) :
    Except ServiceError ClusterDetails :=
  match p.get_cluster vm_cluster_id with
  | .error e => .error e
  | .ok cluster =>
    .ok ⟨cluster, tryOpt (p.get_iorm vm_cluster_id),
      patchesOf (p.list_patches vm_cluster_id)⟩

/-- One element of the `infrastructures` list of a compartment in the report
(keys `details`, `vm_clusters`). -/
structure InfraEntry where
  details : InfraDetails
  vm_clusters : List ClusterDetails
  deriving DecidableEq, Repr

/-- One element of the `compartments` list of the report. -/
structure CompartmentData where
  compartment_id : String
  compartment_name : String
  infrastructures : List InfraEntry
  deriving DecidableEq, Repr

/-- The dictionary `fetch_all_data` returns (keys `tenancy_id`,
`compartments`). -/
structure Report where
  tenancy_id : String
  compartments : List CompartmentData
  deriving DecidableEq, Repr

/-- The inner `for cluster in vm_clusters` loop of `fetch_all_data` (lines
326-331): fetch details for each cluster in order, appending to
`vm_clusters_details` and incrementing `total_vm_clusters`; the first raised
error aborts the whole run. -/
def process_clusters (p : Provider) :
    List VmCluster → Except ServiceError (List ClusterDetails × Nat)
  | [] => .ok ([], 0)
  | cluster :: rest =>
    match get_vm_cluster_details p cluster.id with
    | .error e => .error e
    | .ok cluster_details =>
      match process_clusters p rest with
      | .error e => .error e
      | .ok (ds, n) => .ok (cluster_details :: ds, n + 1)

/-- The `for infra in infrastructures` loop of `fetch_all_data` (lines
313-336): per infrastructure, fetch its details, list its VM clusters
(scoped to the compartment and narrowed to the infrastructure), process the
clusters, and append the entry; the second component is the contribution of
this loop to `total_vm_clusters`. -/
def process_infras (p : Provider) (comp_id : String) :
    List Infra → Except ServiceError (List InfraEntry × Nat)
  | [] => .ok ([], 0)
  | infra :: rest =>
    match get_exadata_infrastructure_details p infra.id with
    | .error e => .error e
    | .ok infra_details =>
      match list_vm_clusters p comp_id (some infra.id) with
      | .error e => .error e
      | .ok vm_clusters =>
        match process_clusters p vm_clusters with
        | .error e => .error e
        | .ok (vm_clusters_details, nvm) =>
          match process_infras p comp_id rest with
          | .error e => .error e
          | .ok (entries, nvm2) =>
            .ok (⟨infra_details, vm_clusters_details⟩ :: entries, nvm + nvm2)

/-- The `for compartment in compartments_to_scan` loop of `fetch_all_data`
(lines 291-339): list the infrastructures of each compartment; a compartment
with an empty listing is skipped (`continue`), otherwise its entry is
appended and `total_infrastructures` grows by the listing length.  The two
counters of the result are `total_infrastructures` and `total_vm_clusters`. -/
def process_compartments (p : Provider) :
    List CompEntry → Except ServiceError (List CompartmentData × Nat × Nat)
  | [] => .ok ([], 0, 0)
  | c :: rest =>
    match list_exadata_infrastructures p c.id with
    | .error e => .error e
    | .ok infrastructures =>
      if infrastructures.isEmpty then
        process_compartments p rest
      else
        match process_infras p c.id infrastructures with
        | .error e => .error e
        | .ok (entries, nvm) =>
          match process_compartments p rest with
          | .error e => .error e
          | .ok (datas, ni, nvms) =>
            .ok (⟨c.id, c.name, entries⟩ :: datas,
              infrastructures.length + ni, nvm + nvms)

/-- `fetch_all_data` (lines 270-342) with its full observable output: the
returned report together with the two totals the function prints on its final
line (`Total: N infrastructure(s), M VM cluster(s)`). -/
def fetch_all_data_impl (p : Provider) :
    Except ServiceError (Report × Nat × Nat) :=
  match list_all_compartments p with
  | .error e => .error e
  | .ok compartments_to_scan =>
    match process_compartments p compartments_to_scan with
    | .error e => .error e
    | .ok (datas, total_infrastructures, total_vm_clusters) =>
      .ok (⟨p.tenancy_id, datas⟩, total_infrastructures, total_vm_clusters)

/-- The value `fetch_all_data` actually returns to its caller: the report
dictionary alone (the totals are only printed). -/
def fetch_all_data (p : Provider) : Except ServiceError Report :=
  (fetch_all_data_impl p).map (fun x => x.1)

/-- Strict lexicographic comparison of character sequences by character
code (for the ASCII display names involved this is byte order). -/
def charsLt : List Char → List Char → Bool
  | [], [] => false
  | [], _ :: _ => true
  | _ :: _, [] => false
  | a :: as, b :: bs =>
    if a.toNat < b.toNat then true
    else if b.toNat < a.toNat then false
    else charsLt as bs

/-- Strict lexicographic order on display names, by character value (for the
ASCII names of the script this is byte order). -/
def strLtB (a b : String) : Bool :=
  charsLt a.data b.data

/-- Strict ascending order on a list of display names. -/
def strAscB : List String → Bool
  | [] => true
  | [_] => true
  | a :: b :: rest => strLtB a b && strAscB (b :: rest)

/-- A small well-behaved provider: one tenancy `"t"` (display name `"root"`),
no descendant compartments, one infrastructure `"i1"` (display name `"a"`),
one VM cluster `"v1"` (display name `"c"`), one patch; the OCPU, unallocated
and IORM endpoints fail.  The endpoint functions answer every identifier the
same way, which keeps the provider consistent for each identifier the
traversal actually passes. -/
def PW : Provider where
  tenancy_id := "t"
  tenancy := .ok ⟨"t", "root"⟩
  compartment_pages := .ok []
  infra_pages := fun _ => .ok [[⟨"i1", "a"⟩]]
  get_infra := fun _ => .ok ⟨"i1", "a"⟩
  get_ocpus := fun _ => .error ⟨404⟩
  get_unallocated := fun _ => .error ⟨404⟩
  cluster_pages := fun _ _ => .ok [[⟨"v1", "c"⟩]]
  get_cluster := fun _ => .ok ⟨"v1", "c"⟩
  get_iorm := fun _ => .error ⟨404⟩
  list_patches := fun _ => .ok [⟨"p1"⟩]

/-- The report the traversal builds against `PW`. -/
def reportPW : Report :=
  ⟨"t", [⟨"t", "root",
    [⟨⟨⟨"i1", "a"⟩, none, none⟩, [⟨⟨"v1", "c"⟩, none, [⟨"p1"⟩]⟩]⟩]⟩]⟩

/-- A provider whose compartment listing serves the same `"ACTIVE"`
compartment on two pages. -/
def dupProvider : Provider where
  tenancy_id := "t"
  tenancy := .ok ⟨"t", "root"⟩
  compartment_pages := .ok [[⟨"c1", "a", "ACTIVE"⟩], [⟨"c1", "a", "ACTIVE"⟩]]
  infra_pages := fun _ => .ok []
  get_infra := fun _ => .error ⟨404⟩
  get_ocpus := fun _ => .error ⟨404⟩
  get_unallocated := fun _ => .error ⟨404⟩
  cluster_pages := fun _ _ => .ok []
  get_cluster := fun _ => .error ⟨404⟩
  get_iorm := fun _ => .error ⟨404⟩
  list_patches := fun _ => .error ⟨404⟩

/-- A copy of `PW`, used to state determinism across two provider values
whose responses agree pointwise. -/
def PW2 : Provider where
  tenancy_id := "t"
  tenancy := .ok ⟨"t", "root"⟩
  compartment_pages := .ok []
  infra_pages := fun _ => .ok [[⟨"i1", "a"⟩]]
  get_infra := fun _ => .ok ⟨"i1", "a"⟩
  get_ocpus := fun _ => .error ⟨404⟩
  get_unallocated := fun _ => .error ⟨404⟩
  cluster_pages := fun _ _ => .ok [[⟨"v1", "c"⟩]]
  get_cluster := fun _ => .ok ⟨"v1", "c"⟩
  get_iorm := fun _ => .error ⟨404⟩
  list_patches := fun _ => .ok [⟨"p1"⟩]

/-- A provider on which the display names are not ascending in the report:
the tenancy (display name `"zzz"`) precedes its child compartment (display
name `"aaa"`), and compartment `"c1"` serves its infrastructure listing in
the order `"y"`, `"x"` (the script only asks the provider for sorted pages;
it never sorts itself). -/
def unsortedProvider : Provider where
  tenancy_id := "t"
  tenancy := .ok ⟨"t", "zzz"⟩
  compartment_pages := .ok [[⟨"c1", "aaa", "ACTIVE"⟩]]
  infra_pages := fun cid =>
    if cid = "c1" then .ok [[⟨"i2", "y"⟩, ⟨"i3", "x"⟩]]
    else .ok [[⟨"i1", "m"⟩]]
  get_infra := fun iid =>
    if iid = "i2" then .ok ⟨"i2", "y"⟩
    else if iid = "i3" then .ok ⟨"i3", "x"⟩
    else .ok ⟨"i1", "m"⟩
  get_ocpus := fun _ => .error ⟨404⟩
  get_unallocated := fun _ => .error ⟨404⟩
  cluster_pages := fun _ _ => .ok []
  get_cluster := fun _ => .error ⟨404⟩
  get_iorm := fun _ => .error ⟨404⟩
  list_patches := fun _ => .error ⟨404⟩

/-- The run against `p` made only successful calls: compartment discovery
succeeded, and for every discovered compartment the infrastructure listing
succeeded, with every listed infrastructure having a successful mandatory
detail fetch and a successful cluster listing, and every listed cluster a
successful mandatory detail fetch. -/
def traversal_calls_ok (p : Provider) : Prop :=
  ∀ comps, list_all_compartments p = .ok comps →
    ∀ c ∈ comps, ∃ infras,
      list_exadata_infrastructures p c.id = .ok infras ∧
      ∀ i ∈ infras,
        (∃ d, get_exadata_infrastructure_details p i.id = .ok d) ∧
        ∃ vms, list_vm_clusters p c.id (some i.id) = .ok vms ∧
          ∀ v ∈ vms, ∃ cd, get_vm_cluster_details p v.id = .ok cd

/-- The structural pagination loop returns the concatenation of all pages. -/
theorem paginate_flatten {α : Type} (pages : List (List α)) :
    paginate pages = pages.flatten := by
  induction pages with
  | nil => rfl
  | cons a rest ih => simp [paginate, ih]

/-- The cursor-following loop resumed at cursor `i` returns the concatenation
of the pages from index `i` on (bounded induction on the remaining length of
the page chain). -/
theorem paginateFrom_flatten_drop {α : Type} :
    ∀ (n : Nat) (pages : List (List α)) (i : Nat), pages.length - i ≤ n →
      paginateFrom pages i = (pages.drop i).flatten := by
  intro n
  induction n with
  | zero =>
    intro pages i h
    have hlen : pages.length ≤ i := by omega
    rw [paginateFrom, dif_neg (by omega)]
    simp [pageCall, List.getD_eq_default _ _ hlen,
      List.drop_eq_nil_of_le hlen, List.getElem?_eq_none hlen]
  | succ n ih =>
    intro pages i h
    rw [paginateFrom]
    by_cases hlt : i + 1 < pages.length
    · rw [dif_pos hlt]
      rw [List.drop_eq_getElem_cons (l := pages) (by omega), List.flatten_cons,
        ih pages (i + 1) (by omega)]
      simp [pageCall,
        List.getElem?_eq_getElem (show i < pages.length by omega)]
    · rw [dif_neg hlt]
      by_cases hi : i < pages.length
      · rw [List.drop_eq_getElem_cons (l := pages) hi]
        have hnil : pages.drop (i + 1) = [] :=
          List.drop_eq_nil_of_le (by omega)
        rw [hnil]
        simp [pageCall, List.getElem?_eq_getElem hi]
      · have hlen : pages.length ≤ i := by omega
        simp [pageCall, List.getD_eq_default _ _ hlen,
          List.drop_eq_nil_of_le hlen, List.getElem?_eq_none hlen]

/-- Unfolding of a successful infrastructure detail fetch: the base record is
exactly the successful `get_exadata_infrastructure` response, and the two
optional fields are the downgraded optional fetches. -/
theorem get_infra_details_ok (p : Provider) (iid : String) (d : InfraDetails)
    (h : get_exadata_infrastructure_details p iid = .ok d) :
    p.get_infra iid = .ok d.infrastructure ∧
    d.ocpu_info = tryOpt (p.get_ocpus iid) ∧
    d.unallocated_resources = tryOpt (p.get_unallocated iid) := by
  cases hg : p.get_infra iid with
  | error e =>
    simp [get_exadata_infrastructure_details, hg] at h
  | ok infra =>
    simp only [get_exadata_infrastructure_details, hg, Except.ok.injEq] at h
    subst h
    exact ⟨rfl, rfl, rfl⟩

/-- Unfolding of a successful VM cluster detail fetch. -/
theorem get_cluster_details_ok (p : Provider) (vid : String) (d : ClusterDetails)
    (h : get_vm_cluster_details p vid = .ok d) :
    p.get_cluster vid = .ok d.cluster ∧
    d.iorm_config = tryOpt (p.get_iorm vid) ∧
    d.patches = patchesOf (p.list_patches vid) := by
  cases hg : p.get_cluster vid with
  | error e =>
    simp [get_vm_cluster_details, hg] at h
  | ok cl =>
    simp only [get_vm_cluster_details, hg, Except.ok.injEq] at h
    subst h
    exact ⟨rfl, rfl, rfl⟩

/-- A successful infrastructure listing is the concatenation of the pages the
provider serves for the compartment. -/
theorem list_exadata_infrastructures_ok (p : Provider) (cid : String)
    (l : List Infra) (h : list_exadata_infrastructures p cid = .ok l) :
    ∃ pages, p.infra_pages cid = .ok pages ∧ l = pages.flatten := by
  cases hp : p.infra_pages cid with
  | error e => simp [list_exadata_infrastructures, hp] at h
  | ok pages =>
    simp only [list_exadata_infrastructures, hp, Except.ok.injEq] at h
    exact ⟨pages, rfl, by rw [← h, paginate_flatten]⟩

/-- A successful VM cluster listing is the concatenation of the pages the
provider serves for the compartment and infrastructure scope. -/
theorem list_vm_clusters_ok (p : Provider) (cid : String) (iid : Option String)
    (l : List VmCluster) (h : list_vm_clusters p cid iid = .ok l) :
    ∃ pages, p.cluster_pages cid iid = .ok pages ∧ l = pages.flatten := by
  cases hp : p.cluster_pages cid iid with
  | error e => simp [list_vm_clusters, hp] at h
  | ok pages =>
    simp only [list_vm_clusters, hp, Except.ok.injEq] at h
    exact ⟨pages, rfl, by rw [← h, paginate_flatten]⟩

/-- Every element of the right list of a `Forall2` is related to some element
of the left list. -/
theorem forall2_mem_right {α β : Type} {R : α → β → Prop} :
    ∀ {l1 : List α} {l2 : List β}, List.Forall₂ R l1 l2 →
      ∀ b ∈ l2, ∃ a ∈ l1, R a b := by
  intro l1 l2 h
  induction h with
  | nil => intro b hb; cases hb
  | cons hab htail ih =>
    intro b hb
    rcases List.mem_cons.mp hb with h1 | h2
    · exact ⟨_, List.mem_cons_self _ _, by rw [h1]; exact hab⟩
    · obtain ⟨a, ha, hR⟩ := ih b h2
      exact ⟨a, List.mem_cons_of_mem _ ha, hR⟩

/-- Every element of the left list of a `Forall2` is related to some element
of the right list. -/
theorem forall2_mem_left {α β : Type} {R : α → β → Prop} :
    ∀ {l1 : List α} {l2 : List β}, List.Forall₂ R l1 l2 →
      ∀ a ∈ l1, ∃ b ∈ l2, R a b := by
  intro l1 l2 h
  induction h with
  | nil => intro a ha; cases ha
  | cons hab htail ih =>
    intro a ha
    rcases List.mem_cons.mp ha with h1 | h2
    · exact ⟨_, List.mem_cons_self _ _, by rw [h1]; exact hab⟩
    · obtain ⟨b, hb, hR⟩ := ih a h2
      exact ⟨b, List.mem_cons_of_mem _ hb, hR⟩

/-- Mapping both sides of a `Forall2` by functions that agree on related
pairs yields equal lists. -/
theorem forall2_map_eq {α β γ : Type} {R : α → β → Prop} {f : β → γ}
    {g : α → γ} :
    ∀ {l1 : List α} {l2 : List β}, List.Forall₂ R l1 l2 →
      (∀ a ∈ l1, ∀ b, R a b → f b = g a) → l2.map f = l1.map g := by
  intro l1 l2 h
  induction h with
  | nil => intro _; rfl
  | cons hab htail ih =>
    intro hfg
    simp [hfg _ (List.mem_cons_self _ _) _ hab,
      ih (fun a ha b hr => hfg a (List.mem_cons_of_mem _ ha) b hr)]

/-- Characterization of a successful run of the cluster loop: the counter is
the number of processed clusters, and the details list matches the cluster
listing pointwise via `get_vm_cluster_details`. -/
theorem process_clusters_ok (p : Provider) :
    ∀ (vms : List VmCluster) (ds : List ClusterDetails) (n : Nat),
      process_clusters p vms = .ok (ds, n) →
      n = ds.length ∧
      List.Forall₂ (fun v d => get_vm_cluster_details p v.id = .ok d) vms ds := by
  intro vms
  induction vms with
  | nil =>
    intro ds n h
    simp only [process_clusters, Except.ok.injEq, Prod.mk.injEq] at h
    obtain ⟨h1, h2⟩ := h
    subst h1
    subst h2
    exact ⟨rfl, List.Forall₂.nil⟩
  | cons c rest ih =>
    intro ds n h
    cases hd : get_vm_cluster_details p c.id with
    | error e => simp [process_clusters, hd] at h
    | ok d =>
      cases hr : process_clusters p rest with
      | error e => simp [process_clusters, hd, hr] at h
      | ok pr =>
        obtain ⟨ds2, n2⟩ := pr
        simp only [process_clusters, hd, hr, Except.ok.injEq,
          Prod.mk.injEq] at h
        obtain ⟨h1, h2⟩ := h
        subst h1
        subst h2
        obtain ⟨hlen, hforall⟩ := ih ds2 n2 hr
        exact ⟨by simp [hlen], List.Forall₂.cons hd hforall⟩

/-- Characterization of a successful run of the infrastructure loop: the
counter is the total number of cluster details attached, and the entries
match the infrastructure listing pointwise (details fetched for the listed
id, clusters listed for the compartment narrowed to the listed id, cluster
details processed from that listing). -/
theorem process_infras_ok (p : Provider) (cid : String) :
    ∀ (infras : List Infra) (es : List InfraEntry) (n : Nat),
      process_infras p cid infras = .ok (es, n) →
      n = (es.map (fun e => e.vm_clusters.length)).sum ∧
      List.Forall₂ (fun i e =>
        get_exadata_infrastructure_details p i.id = .ok e.details ∧
        ∃ vms, list_vm_clusters p cid (some i.id) = .ok vms ∧
          process_clusters p vms = .ok (e.vm_clusters, e.vm_clusters.length))
        infras es := by
  intro infras
  induction infras with
  | nil =>
    intro es n h
    simp only [process_infras, Except.ok.injEq, Prod.mk.injEq] at h
    obtain ⟨h1, h2⟩ := h
    subst h1
    subst h2
    exact ⟨rfl, List.Forall₂.nil⟩
  | cons infra rest ih =>
    intro es n h
    cases hd : get_exadata_infrastructure_details p infra.id with
    | error e => simp [process_infras, hd] at h
    | ok infra_details =>
      cases hv : list_vm_clusters p cid (some infra.id) with
      | error e => simp [process_infras, hd, hv] at h
      | ok vm_clusters =>
        cases hpc : process_clusters p vm_clusters with
        | error e => simp [process_infras, hd, hv, hpc] at h
        | ok pr =>
          obtain ⟨vmds, nvm⟩ := pr
          cases hrest : process_infras p cid rest with
          | error e => simp [process_infras, hd, hv, hpc, hrest] at h
          | ok pr2 =>
            obtain ⟨entries, nvm2⟩ := pr2
            simp only [process_infras, hd, hv, hpc, hrest, Except.ok.injEq,
              Prod.mk.injEq] at h
            obtain ⟨h1, h2⟩ := h
            subst h1
            subst h2
            obtain ⟨hlen1, _⟩ := process_clusters_ok p vm_clusters vmds nvm hpc
            obtain ⟨hlen2, hforall2⟩ := ih entries nvm2 hrest
            refine ⟨by simp [hlen1, hlen2], List.Forall₂.cons ⟨hd, ?_⟩ hforall2⟩
            subst hlen1
            exact ⟨vm_clusters, hv, hpc⟩

/-- Characterization of a successful run of the compartment loop:
every report entry stems from a listed compartment with a nonempty
infrastructure listing; every listed compartment had its listing succeed, and
when nonempty, contributes an entry; the first counter adds up the listing
lengths of the kept compartments, the second the cluster details. -/
theorem process_compartments_ok (p : Provider) :
    ∀ (comps : List CompEntry) (datas : List CompartmentData) (ni nv : Nat),
      process_compartments p comps = .ok (datas, ni, nv) →
      (∀ cd ∈ datas, ∃ c ∈ comps, cd.compartment_id = c.id ∧
        cd.compartment_name = c.name ∧
        ∃ infras, list_exadata_infrastructures p c.id = .ok infras ∧
          infras ≠ [] ∧
          ∃ k, process_infras p c.id infras = .ok (cd.infrastructures, k)) ∧
      (∀ c ∈ comps, ∃ infras,
        list_exadata_infrastructures p c.id = .ok infras ∧
        (infras ≠ [] → ∃ cd ∈ datas, cd.compartment_id = c.id ∧
          ∃ k, process_infras p c.id infras = .ok (cd.infrastructures, k))) ∧
      ni = (datas.map (fun cd => cd.infrastructures.length)).sum ∧
      nv = (datas.map (fun cd =>
        (cd.infrastructures.map (fun e => e.vm_clusters.length)).sum)).sum := by
  intro comps
  induction comps with
  | nil =>
    intro datas ni nv h
    simp only [process_compartments, Except.ok.injEq, Prod.mk.injEq] at h
    obtain ⟨h1, h2, h3⟩ := h
    subst h1
    subst h2
    subst h3
    refine ⟨?_, ?_, rfl, rfl⟩
    · intro cd hcd
      cases hcd
    · intro c hc
      cases hc
  | cons c rest ih =>
    intro datas ni nv h
    cases hl : list_exadata_infrastructures p c.id with
    | error e => simp [process_compartments, hl] at h
    | ok infrastructures =>
      by_cases hemp : infrastructures.isEmpty
      · have h' : process_compartments p rest = .ok (datas, ni, nv) := by
          simpa [process_compartments, hl, hemp] using h
        obtain ⟨ha, hb, hc1, hc2⟩ := ih datas ni nv h'
        refine ⟨?_, ?_, hc1, hc2⟩
        · intro cd hcd
          obtain ⟨c2, hmem, rest_h⟩ := ha cd hcd
          exact ⟨c2, List.mem_cons_of_mem _ hmem, rest_h⟩
        · intro c2 hc2m
          rcases List.mem_cons.mp hc2m with heq | hmem
          · subst heq
            refine ⟨infrastructures, hl, ?_⟩
            intro hne
            exact absurd (List.isEmpty_iff.mp hemp) hne
          · exact hb c2 hmem
      · cases hpi : process_infras p c.id infrastructures with
        | error e => simp [process_compartments, hl, hemp, hpi] at h
        | ok pr =>
          obtain ⟨entries, nvm⟩ := pr
          cases hrest : process_compartments p rest with
          | error e => simp [process_compartments, hl, hemp, hpi, hrest] at h
          | ok pr2 =>
            obtain ⟨datas2, ni2, nv2⟩ := pr2
            simp only [process_compartments, hl] at h
            rw [if_neg hemp] at h
            simp only [hpi, hrest, Except.ok.injEq, Prod.mk.injEq] at h
            obtain ⟨h1, h2, h3⟩ := h
            subst h1
            subst h2
            subst h3
            obtain ⟨ha, hb, hc1, hc2⟩ := ih datas2 ni2 nv2 hrest
            obtain ⟨hnvm, hforall⟩ :=
              process_infras_ok p c.id infrastructures entries nvm hpi
            have hlen : infrastructures.length = entries.length :=
              hforall.length_eq
            constructor
            · intro cd hcd
              rcases List.mem_cons.mp hcd with heq | hmem
              · subst heq
                exact ⟨c, List.mem_cons_self _ _, rfl, rfl,
                  infrastructures, hl,
                  fun hne => hemp (by simp [hne]), ⟨nvm, hpi⟩⟩
              · obtain ⟨c2, hmem2, rest_h⟩ := ha cd hmem
                exact ⟨c2, List.mem_cons_of_mem _ hmem2, rest_h⟩
            constructor
            · intro c2 hc2m
              rcases List.mem_cons.mp hc2m with heq | hmem
              · subst heq
                refine ⟨infrastructures, hl, fun _ => ?_⟩
                exact ⟨⟨c2.id, c2.name, entries⟩,
                  List.mem_cons_self _ _, rfl, nvm, hpi⟩
              · obtain ⟨infras2, hl2, hcont⟩ := hb c2 hmem
                refine ⟨infras2, hl2, fun hne => ?_⟩
                obtain ⟨cd, hcdm, rest_h⟩ := hcont hne
                exact ⟨cd, List.mem_cons_of_mem _ hcdm, rest_h⟩
            constructor
            · simp [hc1, hlen]
            · simp [hc2, hnvm]

/-- C8: the pagination loop terminates on every finite continuation-cursor
chain (finiteness of the chain is what the `List` of pages models) and
returns exactly the concatenation, in order, of the items of every page,
making no assumption about page size and tolerating zero-length pages: both
the cursor-indexed loop started at the first page and the structural form
used by `list_exadata_infrastructures` and `list_vm_clusters` return the
flattening of the page chain. -/
theorem pagination_loop_returns_concatenation {α : Type}
    (pages : List (List α)) :
    paginateFrom pages 0 = pages.flatten ∧ paginate pages = pages.flatten := by
  constructor
  · have h := paginateFrom_flatten_drop pages.length pages 0 (by omega)
    simpa using h
  · exact paginate_flatten pages

/-- C6: for every VM cluster whose mandatory base fetch succeeds, the patch
list attached to its detail record has length at most five; it equals the
first five entries of the provider response, in provider order, when
the patch listing succeeds, and is empty when the patch listing fails. -/
theorem patches_truncated_to_five (p : Provider) (vid : String)
    (cl : VmCluster) (hv : p.get_cluster vid = .ok cl) :
    ∃ d, get_vm_cluster_details p vid = .ok d ∧ d.patches.length ≤ 5 ∧
      (∀ l, p.list_patches vid = .ok l → d.patches = l.take 5) ∧
      (∀ e, p.list_patches vid = .error e → d.patches = []) := by
  refine ⟨⟨cl, tryOpt (p.get_iorm vid), patchesOf (p.list_patches vid)⟩,
    ?_, ?_, ?_, ?_⟩
  · simp [get_vm_cluster_details, hv]
  · cases hp : p.list_patches vid with
    | ok l =>
      simp only [patchesOf, List.length_take]
      omega
    | error e => simp [patchesOf]
  · intro l hl
    simp [patchesOf, hl]
  · intro e he
    simp [patchesOf, he]

/-- Witness for C6 at the concrete provider `PW` and cluster `"v1"`. -/
theorem patches_truncated_to_five_witness :
    PW.get_cluster "v1" = .ok ⟨"v1", "c"⟩ ∧
    (∃ d, get_vm_cluster_details PW "v1" = .ok d ∧ d.patches.length ≤ 5 ∧
      (∀ l, PW.list_patches "v1" = .ok l → d.patches = l.take 5) ∧
      (∀ e, PW.list_patches "v1" = .error e → d.patches = [])) :=
  ⟨rfl, patches_truncated_to_five PW "v1" ⟨"v1", "c"⟩ rfl⟩

/-- C3: a failing optional sub-record fetch (OCPU info, unallocated
resources, IORM config, patch list) is downgraded to an absent field (`none`,
or `[]` for patches); the detail record of the resource still exists with its base
record intact, and the detail record of any resource is a function of the
provider responses for that one resource identifier only, so a failure on one
resource cannot change the entry of a sibling. -/
theorem optional_detail_failure_isolated (p : Provider) (iid vid : String)
    (infra : Infra) (cl : VmCluster) (hi : p.get_infra iid = .ok infra)
    (hv : p.get_cluster vid = .ok cl) :
    (∃ d, get_exadata_infrastructure_details p iid = .ok d ∧
      d.infrastructure = infra ∧
      (∀ e, p.get_ocpus iid = .error e → d.ocpu_info = none) ∧
      (∀ e, p.get_unallocated iid = .error e →
        d.unallocated_resources = none)) ∧
    (∃ d, get_vm_cluster_details p vid = .ok d ∧ d.cluster = cl ∧
      (∀ e, p.get_iorm vid = .error e → d.iorm_config = none) ∧
      (∀ e, p.list_patches vid = .error e → d.patches = [])) ∧
    (∀ q : Provider, ∀ jid : String, q.get_infra jid = p.get_infra jid →
      q.get_ocpus jid = p.get_ocpus jid →
      q.get_unallocated jid = p.get_unallocated jid →
      get_exadata_infrastructure_details q jid =
        get_exadata_infrastructure_details p jid) ∧
    (∀ q : Provider, ∀ jid : String, q.get_cluster jid = p.get_cluster jid →
      q.get_iorm jid = p.get_iorm jid →
      q.list_patches jid = p.list_patches jid →
      get_vm_cluster_details q jid = get_vm_cluster_details p jid) := by
  refine ⟨⟨⟨infra, tryOpt (p.get_ocpus iid), tryOpt (p.get_unallocated iid)⟩,
      ?_, rfl, ?_, ?_⟩,
    ⟨⟨cl, tryOpt (p.get_iorm vid), patchesOf (p.list_patches vid)⟩,
      ?_, rfl, ?_, ?_⟩, ?_, ?_⟩
  · simp [get_exadata_infrastructure_details, hi]
  · intro e he
    simp [tryOpt, he]
  · intro e he
    simp [tryOpt, he]
  · simp [get_vm_cluster_details, hv]
  · intro e he
    simp [tryOpt, he]
  · intro e he
    simp [patchesOf, he]
  · intro q jid hq1 hq2 hq3
    simp [get_exadata_infrastructure_details, hq1, hq2, hq3]
  · intro q jid hq1 hq2 hq3
    simp [get_vm_cluster_details, hq1, hq2, hq3]

/-- Witness for C3 at `PW`, infrastructure `"i1"` and cluster `"v1"` (whose
OCPU, unallocated and IORM fetches all fail on `PW`). -/
theorem optional_detail_failure_isolated_witness :
    PW.get_infra "i1" = .ok ⟨"i1", "a"⟩ ∧
    PW.get_cluster "v1" = .ok ⟨"v1", "c"⟩ ∧
    ((∃ d, get_exadata_infrastructure_details PW "i1" = .ok d ∧
      d.infrastructure = ⟨"i1", "a"⟩ ∧
      (∀ e, PW.get_ocpus "i1" = .error e → d.ocpu_info = none) ∧
      (∀ e, PW.get_unallocated "i1" = .error e →
        d.unallocated_resources = none)) ∧
    (∃ d, get_vm_cluster_details PW "v1" = .ok d ∧ d.cluster = ⟨"v1", "c"⟩ ∧
      (∀ e, PW.get_iorm "v1" = .error e → d.iorm_config = none) ∧
      (∀ e, PW.list_patches "v1" = .error e → d.patches = [])) ∧
    (∀ q : Provider, ∀ jid : String, q.get_infra jid = PW.get_infra jid →
      q.get_ocpus jid = PW.get_ocpus jid →
      q.get_unallocated jid = PW.get_unallocated jid →
      get_exadata_infrastructure_details q jid =
        get_exadata_infrastructure_details PW jid) ∧
    (∀ q : Provider, ∀ jid : String, q.get_cluster jid = PW.get_cluster jid →
      q.get_iorm jid = PW.get_iorm jid →
      q.list_patches jid = PW.list_patches jid →
      get_vm_cluster_details q jid = get_vm_cluster_details PW jid)) :=
  ⟨rfl, rfl,
    optional_detail_failure_isolated PW "i1" "v1" ⟨"i1", "a"⟩ ⟨"v1", "c"⟩
      rfl rfl⟩

/-- C5 (amended): container discovery returns the root first, with a
synthetic `"ACTIVE"` lifecycle state and the root flag set, followed by
exactly the provider-returned descendant compartments whose lifecycle state
is `"ACTIVE"`, in provider order, each marked non-root.  No deduplication by
identifier is performed. -/
theorem list_all_compartments_shape (p : Provider) (ten : Tenancy)
    (pages : List (List Compartment)) (h1 : p.tenancy = .ok ten)
    (h2 : p.compartment_pages = .ok pages) :
    list_all_compartments p = .ok (⟨ten.id, ten.name, "ACTIVE", true⟩ ::
      ((pages.flatten.filter (fun c => c.lifecycle_state = "ACTIVE")).map
        (fun c => ⟨c.id, c.name, c.lifecycle_state, false⟩))) := by
  simp [list_all_compartments, h1, h2, paginate_flatten]

/-- Witness for the amended C5 at the concrete provider `PW`. -/
theorem list_all_compartments_shape_witness :
    PW.tenancy = .ok ⟨"t", "root"⟩ ∧ PW.compartment_pages = .ok [] ∧
    list_all_compartments PW = .ok [⟨"t", "root", "ACTIVE", true⟩] :=
  ⟨rfl, rfl, list_all_compartments_shape PW ⟨"t", "root"⟩ [] rfl rfl⟩

/-- Counterexample to C5 as stated: against `dupProvider` the discovery
result contains the same compartment identifier `"c1"` twice, so the result
is not deduplicated by identifier. -/
theorem list_all_compartments_no_dedup_cex :
    list_all_compartments dupProvider = .ok
      [⟨"t", "root", "ACTIVE", true⟩, ⟨"c1", "a", "ACTIVE", false⟩,
        ⟨"c1", "a", "ACTIVE", false⟩] ∧
    ¬ (List.map CompEntry.id
      ([⟨"t", "root", "ACTIVE", true⟩, ⟨"c1", "a", "ACTIVE", false⟩,
        ⟨"c1", "a", "ACTIVE", false⟩] : List CompEntry)).Nodup :=
  ⟨rfl, by decide⟩

/-- A successful `fetch_all_data` run decomposes into a successful
compartment discovery and a successful compartment loop producing the
compartment list of the report and the two printed totals. -/
theorem fetch_all_data_ok (p : Provider) (r : Report)
    (h : fetch_all_data p = .ok r) :
    ∃ comps ni nv, list_all_compartments p = .ok comps ∧
      process_compartments p comps = .ok (r.compartments, ni, nv) ∧
      r.tenancy_id = p.tenancy_id ∧
      fetch_all_data_impl p = .ok (r, ni, nv) := by
  cases hc : list_all_compartments p with
  | error e => simp [fetch_all_data, fetch_all_data_impl, hc, Except.map] at h
  | ok comps =>
    cases hpc : process_compartments p comps with
    | error e =>
      simp [fetch_all_data, fetch_all_data_impl, hc, hpc, Except.map] at h
    | ok pr =>
      obtain ⟨datas, ni, nv⟩ := pr
      simp only [fetch_all_data, fetch_all_data_impl, hc, hpc, Except.map,
        Except.ok.injEq] at h
      subst h
      exact ⟨comps, ni, nv, rfl, hpc, rfl, by
        simp [fetch_all_data_impl, hc, hpc]⟩

/-- C2: a report value is handed back to the caller only if every listing
call and every mandatory base-record fetch that the traversal performs
succeeded; equivalently, any such failure propagates out of `fetch_all_data`
(its result is an `Except.error`), so success and failure are never
conflated and no scope is silently dropped. -/
theorem report_only_when_all_calls_ok (p : Provider) (r : Report)
    (h : fetch_all_data p = .ok r) : traversal_calls_ok p := by
  obtain ⟨comps, ni, nv, hc, hpc, -, -⟩ := fetch_all_data_ok p r h
  intro comps2 hc2 c hcm
  rw [hc] at hc2
  injection hc2 with hc2
  subst hc2
  obtain ⟨-, hb, -, -⟩ :=
    process_compartments_ok p comps r.compartments ni nv hpc
  obtain ⟨infras, hl, hcont⟩ := hb c hcm
  refine ⟨infras, hl, ?_⟩
  intro i him
  by_cases hne : infras = []
  · subst hne
    cases him
  · obtain ⟨cd, -, -, k, hpi⟩ := hcont hne
    obtain ⟨-, hforall⟩ :=
      process_infras_ok p c.id infras cd.infrastructures k hpi
    obtain ⟨e, -, hdet, vms, hvml, hpcl⟩ := forall2_mem_left hforall i him
    refine ⟨⟨e.details, hdet⟩, vms, hvml, ?_⟩
    intro v hvm
    obtain ⟨-, hforall2⟩ :=
      process_clusters_ok p vms e.vm_clusters e.vm_clusters.length hpcl
    obtain ⟨d, -, hd⟩ := forall2_mem_left hforall2 v hvm
    exact ⟨d, hd⟩

/-- Witness for C2 at the concrete provider `PW`. -/
theorem report_only_when_all_calls_ok_witness :
    fetch_all_data PW = .ok reportPW ∧ traversal_calls_ok PW :=
  ⟨rfl, report_only_when_all_calls_ok PW reportPW rfl⟩

/-- C4: a compartment whose infrastructure listing is empty never appears in
the report; a compartment whose listing is nonempty appears, keeping one
entry per listed infrastructure — in particular an infrastructure whose VM
cluster listing is empty is kept, with an empty cluster-details list. -/
theorem empty_compartments_omitted_empty_clusters_kept (p : Provider)
    (r : Report) (h : fetch_all_data p = .ok r) :
    (∀ cd ∈ r.compartments,
      ¬ list_exadata_infrastructures p cd.compartment_id = .ok []) ∧
    (∀ comps, list_all_compartments p = .ok comps →
      ∀ c ∈ comps, ∀ infras,
        list_exadata_infrastructures p c.id = .ok infras → infras ≠ [] →
        ∃ cd ∈ r.compartments, cd.compartment_id = c.id ∧
          cd.infrastructures.length = infras.length ∧
          List.Forall₂ (fun i e => ∃ vms,
            list_vm_clusters p c.id (some i.id) = .ok vms ∧
            e.vm_clusters.length = vms.length) infras cd.infrastructures) := by
  obtain ⟨comps, ni, nv, hc, hpc, -, -⟩ := fetch_all_data_ok p r h
  obtain ⟨ha, hb, -, -⟩ :=
    process_compartments_ok p comps r.compartments ni nv hpc
  constructor
  · intro cd hcd hbad
    obtain ⟨c, -, hid, -, infras, hl, hne, -⟩ := ha cd hcd
    rw [hid] at hbad
    rw [hl] at hbad
    injection hbad with hbad
    exact hne hbad
  · intro comps2 hc2 c hcm infras hl hne
    rw [hc] at hc2
    injection hc2 with hc2
    subst hc2
    obtain ⟨infras2, hl2, hcont⟩ := hb c hcm
    rw [hl] at hl2
    injection hl2 with hl2
    subst hl2
    obtain ⟨cd, hcdm, hid, k, hpi⟩ := hcont hne
    obtain ⟨-, hforall⟩ :=
      process_infras_ok p c.id infras cd.infrastructures k hpi
    refine ⟨cd, hcdm, hid, hforall.length_eq.symm, ?_⟩
    refine List.Forall₂.imp ?_ hforall
    intro i e hr
    obtain ⟨-, vms, hvml, hpcl⟩ := hr
    obtain ⟨hlen, hforall2⟩ :=
      process_clusters_ok p vms e.vm_clusters e.vm_clusters.length hpcl
    exact ⟨vms, hvml, hforall2.length_eq.symm⟩

/-- Witness for C4 at the concrete provider `PW`. -/
theorem empty_compartments_omitted_empty_clusters_kept_witness :
    fetch_all_data PW = .ok reportPW ∧
    ((∀ cd ∈ reportPW.compartments,
      ¬ list_exadata_infrastructures PW cd.compartment_id = .ok []) ∧
    (∀ comps, list_all_compartments PW = .ok comps →
      ∀ c ∈ comps, ∀ infras,
        list_exadata_infrastructures PW c.id = .ok infras → infras ≠ [] →
        ∃ cd ∈ reportPW.compartments, cd.compartment_id = c.id ∧
          cd.infrastructures.length = infras.length ∧
          List.Forall₂ (fun i e => ∃ vms,
            list_vm_clusters PW c.id (some i.id) = .ok vms ∧
            e.vm_clusters.length = vms.length) infras cd.infrastructures)) :=
  ⟨rfl, empty_compartments_omitted_empty_clusters_kept PW reportPW rfl⟩

/-- C7: `fetch_all_data` takes no input beyond the provider session (which
carries the tenancy identifier); it returns the report, and the two totals
it prints alongside are exactly the number of infrastructure entries and the
number of VM cluster entries contained in that report. -/
theorem fetch_all_data_totals (p : Provider) (r : Report) (ti tv : Nat)
    (h : fetch_all_data_impl p = .ok (r, ti, tv)) :
    fetch_all_data p = .ok r ∧
    ti = (r.compartments.map (fun cd => cd.infrastructures.length)).sum ∧
    tv = (r.compartments.map (fun cd =>
      (cd.infrastructures.map (fun e => e.vm_clusters.length)).sum)).sum := by
  refine ⟨by simp [fetch_all_data, h, Except.map], ?_⟩
  cases hc : list_all_compartments p with
  | error e => simp [fetch_all_data_impl, hc] at h
  | ok comps =>
    cases hpc : process_compartments p comps with
    | error e => simp [fetch_all_data_impl, hc, hpc] at h
    | ok pr =>
      obtain ⟨datas, ni, nv⟩ := pr
      simp only [fetch_all_data_impl, hc, hpc, Except.ok.injEq,
        Prod.mk.injEq] at h
      obtain ⟨h1, h2, h3⟩ := h
      obtain ⟨-, -, hni, hnv⟩ :=
        process_compartments_ok p comps datas ni nv hpc
      constructor
      · rw [← h2, hni, ← h1]
      · rw [← h3, hnv, ← h1]

/-- Witness for C7 at the concrete provider `PW` (one infrastructure, one
VM cluster, printed totals 1 and 1). -/
theorem fetch_all_data_totals_witness :
    fetch_all_data_impl PW = .ok (reportPW, 1, 1) ∧
    (fetch_all_data PW = .ok reportPW ∧
      1 = (reportPW.compartments.map
        (fun cd => cd.infrastructures.length)).sum ∧
      1 = (reportPW.compartments.map (fun cd =>
        (cd.infrastructures.map (fun e => e.vm_clusters.length)).sum)).sum) :=
  ⟨rfl, fetch_all_data_totals PW reportPW 1 1 rfl⟩

/-- C10: every infrastructure entry of the report carries a mandatory base
record obtained from a successful `get_exadata_infrastructure` call (the
whole detail record is a successful detail fetch), and every VM cluster
entry carries a mandatory base record obtained from a successful
`get_vm_cluster` call; an entry whose mandatory fetch failed never appears
(such a failure aborts the run instead). -/
theorem mandatory_base_records_present (p : Provider) (r : Report)
    (h : fetch_all_data p = .ok r) :
    ∀ cd ∈ r.compartments, ∀ ie ∈ cd.infrastructures,
      (∃ iid, get_exadata_infrastructure_details p iid = .ok ie.details ∧
        p.get_infra iid = .ok ie.details.infrastructure) ∧
      ∀ vd ∈ ie.vm_clusters,
        ∃ vid, get_vm_cluster_details p vid = .ok vd ∧
          p.get_cluster vid = .ok vd.cluster := by
  obtain ⟨comps, ni, nv, hc, hpc, -, -⟩ := fetch_all_data_ok p r h
  obtain ⟨ha, -, -, -⟩ :=
    process_compartments_ok p comps r.compartments ni nv hpc
  intro cd hcd ie hie
  obtain ⟨c, -, -, -, infras, hl, -, k, hpi⟩ := ha cd hcd
  obtain ⟨-, hforall⟩ :=
    process_infras_ok p c.id infras cd.infrastructures k hpi
  obtain ⟨i, -, hdet, vms, hvml, hpcl⟩ := forall2_mem_right hforall ie hie
  constructor
  · exact ⟨i.id, hdet, (get_infra_details_ok p i.id ie.details hdet).1⟩
  · intro vd hvd
    obtain ⟨-, hforall2⟩ :=
      process_clusters_ok p vms ie.vm_clusters ie.vm_clusters.length hpcl
    obtain ⟨v, -, hd⟩ := forall2_mem_right hforall2 vd hvd
    exact ⟨v.id, hd, (get_cluster_details_ok p v.id vd hd).1⟩

/-- Witness for C10 at the concrete provider `PW`. -/
theorem mandatory_base_records_present_witness :
    fetch_all_data PW = .ok reportPW ∧
    (∀ cd ∈ reportPW.compartments, ∀ ie ∈ cd.infrastructures,
      (∃ iid, get_exadata_infrastructure_details PW iid = .ok ie.details ∧
        PW.get_infra iid = .ok ie.details.infrastructure) ∧
      ∀ vd ∈ ie.vm_clusters,
        ∃ vid, get_vm_cluster_details PW vid = .ok vd ∧
          PW.get_cluster vid = .ok vd.cluster) :=
  ⟨rfl, mandatory_base_records_present PW reportPW rfl⟩

/-- C9: the report is a function of the provider responses alone — two
provider values whose endpoint responses agree pointwise (an unchanged
dataset, queried twice) produce identical `fetch_all_data` results. -/
theorem fetch_all_data_deterministic (p q : Provider)
    (h0 : p.tenancy_id = q.tenancy_id) (h1 : p.tenancy = q.tenancy)
    (h2 : p.compartment_pages = q.compartment_pages)
    (h3 : ∀ cid, p.infra_pages cid = q.infra_pages cid)
    (h4 : ∀ iid, p.get_infra iid = q.get_infra iid)
    (h5 : ∀ iid, p.get_ocpus iid = q.get_ocpus iid)
    (h6 : ∀ iid, p.get_unallocated iid = q.get_unallocated iid)
    (h7 : ∀ cid iid, p.cluster_pages cid iid = q.cluster_pages cid iid)
    (h8 : ∀ vid, p.get_cluster vid = q.get_cluster vid)
    (h9 : ∀ vid, p.get_iorm vid = q.get_iorm vid)
    (h10 : ∀ vid, p.list_patches vid = q.list_patches vid) :
    fetch_all_data p = fetch_all_data q := by
  have hdet : ∀ iid, get_exadata_infrastructure_details p iid =
      get_exadata_infrastructure_details q iid := by
    intro iid
    simp [get_exadata_infrastructure_details, h4 iid, h5 iid, h6 iid]
  have hcdet : ∀ vid, get_vm_cluster_details p vid =
      get_vm_cluster_details q vid := by
    intro vid
    simp [get_vm_cluster_details, h8 vid, h9 vid, h10 vid]
  have hpcl : ∀ vms, process_clusters p vms = process_clusters q vms := by
    intro vms
    induction vms with
    | nil => rfl
    | cons c rest ih => simp [process_clusters, hcdet c.id, ih]
  have hli : ∀ cid, list_exadata_infrastructures p cid =
      list_exadata_infrastructures q cid := by
    intro cid
    simp [list_exadata_infrastructures, h3 cid]
  have hlv : ∀ cid iid, list_vm_clusters p cid iid =
      list_vm_clusters q cid iid := by
    intro cid iid
    simp [list_vm_clusters, h7 cid iid]
  have hpi : ∀ cid infras,
      process_infras p cid infras = process_infras q cid infras := by
    intro cid infras
    induction infras with
    | nil => rfl
    | cons infra rest ih =>
      simp [process_infras, hdet infra.id, hlv cid (some infra.id), hpcl, ih]
  have hpcomp : ∀ comps,
      process_compartments p comps = process_compartments q comps := by
    intro comps
    induction comps with
    | nil => rfl
    | cons c rest ih =>
      simp [process_compartments, hli c.id, hpi c.id, ih]
  have hlc : list_all_compartments p = list_all_compartments q := by
    simp [list_all_compartments, h1, h2]
  simp [fetch_all_data, fetch_all_data_impl, hlc, hpcomp, h0]

/-- Witness for C9: two structurally separate but pointwise-equal provider
values yield the same result. -/
theorem fetch_all_data_deterministic_witness :
    fetch_all_data PW = fetch_all_data PW2 :=
  fetch_all_data_deterministic PW PW2 rfl rfl rfl (fun _ => rfl)
    (fun _ => rfl) (fun _ => rfl) (fun _ => rfl) (fun _ _ => rfl)
    (fun _ => rfl) (fun _ => rfl) (fun _ => rfl)

/-- Counterexample to C1 as stated: against `unsortedProvider` the
report compartment entries appear in discovery order `"zzz"`, `"aaa"` (root first —
the script never sorts compartments by display name, nor asks the identity
endpoint to), and the infrastructure entries of compartment `"c1"` appear in
provider order `"y"`, `"x"`; neither sequence is strictly ascending. -/
theorem report_order_cex :
    (fetch_all_data unsortedProvider).map
        (fun r => r.compartments.map (fun cd => cd.compartment_name)) =
      .ok ["zzz", "aaa"] ∧
    strAscB ["zzz", "aaa"] = false ∧
    (fetch_all_data unsortedProvider).map
        (fun r => r.compartments.map (fun cd =>
          cd.infrastructures.map
            (fun e => e.details.infrastructure.display_name))) =
      .ok [["m"], ["y", "x"]] ∧
    strAscB ["y", "x"] = false :=
  ⟨rfl, by decide, rfl, by decide⟩

/-- C1 (amended): the report preserves the provider listing order for
infrastructures and VM clusters — the script requests display-name-ascending
order from the provider but never re-sorts — so whenever the provider serves
every infrastructure and cluster listing strictly ascending by display name
(and its detail endpoint agrees with its listings), the infrastructure
entries within each compartment and the VM cluster entries within each
infrastructure are strictly ascending by display name.  Compartment entries
are in discovery order (root first), not sorted by display name. -/
theorem report_order_follows_provider_order (p : Provider)
    (hIs : ∀ cid pages, p.infra_pages cid = .ok pages →
      strAscB (pages.flatten.map Infra.display_name) = true)
    (hCs : ∀ cid iid pages, p.cluster_pages cid iid = .ok pages →
      strAscB (pages.flatten.map VmCluster.display_name) = true)
    (hIc : ∀ cid pages i, p.infra_pages cid = .ok pages →
      i ∈ pages.flatten → p.get_infra i.id = .ok i)
    (hCc : ∀ cid iid pages v, p.cluster_pages cid iid = .ok pages →
      v ∈ pages.flatten → p.get_cluster v.id = .ok v)
    (r : Report) (h : fetch_all_data p = .ok r) :
    ∀ cd ∈ r.compartments,
      strAscB (cd.infrastructures.map
        (fun e => e.details.infrastructure.display_name)) = true ∧
      ∀ e ∈ cd.infrastructures,
        strAscB (e.vm_clusters.map
          (fun d => d.cluster.display_name)) = true := by
  obtain ⟨comps, ni, nv, hc, hpc, -, -⟩ := fetch_all_data_ok p r h
  obtain ⟨ha, -, -, -⟩ :=
    process_compartments_ok p comps r.compartments ni nv hpc
  intro cd hcd
  obtain ⟨c, -, -, -, infras, hl, -, k, hpi⟩ := ha cd hcd
  obtain ⟨ipages, hip, hifl⟩ :=
    list_exadata_infrastructures_ok p c.id infras hl
  obtain ⟨-, hforall⟩ :=
    process_infras_ok p c.id infras cd.infrastructures k hpi
  constructor
  · have hmap : cd.infrastructures.map
        (fun e => e.details.infrastructure.display_name)
        = infras.map Infra.display_name := by
      refine forall2_map_eq hforall ?_
      intro i him e hr
      obtain ⟨hdet, -⟩ := hr
      have h1 := (get_infra_details_ok p i.id e.details hdet).1
      have h2 := hIc c.id ipages i hip (by rw [← hifl]; exact him)
      rw [h1] at h2
      injection h2 with h2
      simp [h2]
    rw [hmap, hifl]
    exact hIs c.id ipages hip
  · intro e he
    obtain ⟨i, -, -, vms, hvml, hpcl⟩ := forall2_mem_right hforall e he
    obtain ⟨cpages, hcp, hcfl⟩ :=
      list_vm_clusters_ok p c.id (some i.id) vms hvml
    obtain ⟨-, hforall2⟩ :=
      process_clusters_ok p vms e.vm_clusters e.vm_clusters.length hpcl
    have hmap : e.vm_clusters.map (fun d => d.cluster.display_name)
        = vms.map VmCluster.display_name := by
      refine forall2_map_eq hforall2 ?_
      intro v hvm d hd
      have h1 := (get_cluster_details_ok p v.id d hd).1
      have h2 := hCc c.id (some i.id) cpages v hcp (by rw [← hcfl]; exact hvm)
      rw [h1] at h2
      injection h2 with h2
      simp [h2]
    rw [hmap, hcfl]
    exact hCs c.id (some i.id) cpages hcp

/-- Witness for the amended C1 at the concrete provider `PW`, whose listings
are trivially sorted and whose detail endpoints agree with its listings. -/
theorem report_order_follows_provider_order_witness :
    fetch_all_data PW = .ok reportPW ∧
    strAscB (List.map (fun e => e.details.infrastructure.display_name)
      [(⟨⟨⟨"i1", "a"⟩, none, none⟩,
        [⟨⟨"v1", "c"⟩, none, [⟨"p1"⟩]⟩]⟩ : InfraEntry)]) = true := by
  refine ⟨rfl, ?_⟩
  have hIs : ∀ cid pages, PW.infra_pages cid = .ok pages →
      strAscB (pages.flatten.map Infra.display_name) = true := by
    intro cid pages hp
    injection hp with hp
    subst hp
    decide
  have hCs : ∀ cid iid pages, PW.cluster_pages cid iid = .ok pages →
      strAscB (pages.flatten.map VmCluster.display_name) = true := by
    intro cid iid pages hp
    injection hp with hp
    subst hp
    decide
  have hIc : ∀ cid pages i, PW.infra_pages cid = .ok pages →
      i ∈ pages.flatten → PW.get_infra i.id = .ok i := by
    intro cid pages i hp him
    injection hp with hp
    subst hp
    simp at him
    subst him
    rfl
  have hCc : ∀ cid iid pages v, PW.cluster_pages cid iid = .ok pages →
      v ∈ pages.flatten → PW.get_cluster v.id = .ok v := by
    intro cid iid pages v hp hvm
    injection hp with hp
    subst hp
    simp at hvm
    subst hvm
    rfl
  have T := report_order_follows_provider_order PW hIs hCs hIc hCc
    reportPW rfl
  exact (T ⟨"t", "root", [⟨⟨⟨"i1", "a"⟩, none, none⟩,
    [⟨⟨"v1", "c"⟩, none, [⟨"p1"⟩]⟩]⟩]⟩ (by simp [reportPW])).1

end Exadata
